import Mathlib

/-!
Verification of the live quiz-game coordinator: a shallow embedding of the
scoring utilities, answer admission, room state machine, leaderboard and
connection registry, with theorems about the properties the system is
expected to satisfy.

Machine reals (Python floats) are modelled as rationals; Python's int()
conversion is modelled as truncation toward zero; timestamps are abstract
natural numbers supplied by the caller; the database session is modelled as
an explicit record of entity tables, with a failed operation returning an
error and the caller keeping the previous state (the rollback in the source).
-/

namespace QuizApp

/-- Game status values (utils.GameState / schemas.GameStatus). -/
inductive GameStatus where
  | waiting
  | active
  | completed
  | cancelled
deriving DecidableEq, Repr

/-- Python int() applied to a nonnegative-or-negative rational: truncation
toward zero. -/
def int_trunc (q : ℚ) : ℤ := if 0 ≤ q then ⌊q⌋ else ⌈q⌉

/-- The default max_bonus argument of utils.calculate_time_bonus (0.2). -/
def maxBonusDefault : ℚ := 1/5

/-- utils.calculate_time_bonus: linear time bonus for quick answers,
clamped above by max_bonus; zero once response_time reaches time_limit. -/
def calculate_time_bonus (response_time : ℚ) (time_limit : ℤ) (max_bonus : ℚ) : ℚ :=
  if (time_limit : ℚ) ≤ response_time then 0
  else min (((time_limit : ℚ) - response_time) / (time_limit : ℚ) * max_bonus) max_bonus

/-- utils.calculate_score: 0 when incorrect; base points when no response
time was supplied; otherwise base points scaled by (1 + time bonus) and
converted with Python int(). -/
def calculate_score (base_points : ℤ) (is_correct : Bool) (response_time : Option ℚ)
    (time_limit : ℤ) : ℤ :=
  if is_correct = false then 0
  else
    match response_time with
    | none => base_points
    | some rt => int_trunc ((base_points : ℚ) * (1 + calculate_time_bonus rt time_limit maxBonusDefault))

/-- models.Choice. -/
structure Choice where
  id : String
  question_id : String
  choice_text : String
  is_correct : Bool
  order_index : ℕ
deriving DecidableEq, Repr

/-- models.Question (its choices live in the DBState.choices table,
related by question_id, as in the ORM). -/
structure Question where
  id : String
  quiz_id : String
  question_text : String
  time_limit : ℤ
  points : ℤ
  order_index : ℕ
deriving DecidableEq, Repr

/-- models.Quiz with its ordered questions relationship. -/
structure Quiz where
  id : String
  title : String
  questions : List Question
deriving DecidableEq, Repr

/-- models.Room. -/
structure Room where
  id : String
  room_code : String
  quiz : Quiz
  host_id : String
  host_name : String
  status : GameStatus
  current_question : ℕ
  started_at : Option ℕ
  ended_at : Option ℕ
  max_players : ℕ
deriving DecidableEq, Repr

/-- models.Player. -/
structure Player where
  id : String
  room_id : String
  player_id : String
  nickname : String
  is_connected : Bool
  total_score : ℤ
deriving DecidableEq, Repr

/-- models.Answer. -/
structure Answer where
  id : String
  player_id : String
  question_id : String
  choice_id : String
  response_time : Option ℚ
  is_correct : Bool
  points_earned : ℤ
deriving DecidableEq, Repr

/-- schemas.PlayerAnswer: a player's submission payload. -/
structure PlayerAnswer where
  question_id : String
  choice_id : String
  response_time : Option ℚ
deriving DecidableEq, Repr

/-- The database tables touched by the core services. -/
structure DBState where
  players : List Player
  questions : List Question
  choices : List Choice
  answers : List Answer
deriving DecidableEq, Repr

/-- The result dict returned by ScoreService.submit_answer. -/
structure SubmitResult where
  is_correct : Bool
  points_earned : ℤ
  correct_choice_id : Option String
deriving DecidableEq, Repr

/-- The exceptions ScoreService.submit_answer can raise. -/
inductive SubmitError where
  | playerNotFound
  | questionNotFound
  | duplicateAnswer
  | invalidAnswer
deriving DecidableEq, Repr

/-- Decidable equality for Except values, so that concrete service results
can be checked by evaluation. -/
instance instDecEqExcept {ε α : Type} [DecidableEq ε] [DecidableEq α] :
    DecidableEq (Except ε α) := fun a b =>
  match a, b with
  | Except.ok x, Except.ok y =>
    if h : x = y then isTrue (by rw [h]) else isFalse (fun hc => h (by injection hc))
  | Except.ok _, Except.error _ => isFalse (fun hc => Except.noConfusion hc)
  | Except.error _, Except.ok _ => isFalse (fun hc => Except.noConfusion hc)
  | Except.error x, Except.error y =>
    if h : x = y then isTrue (by rw [h]) else isFalse (fun hc => h (by injection hc))

/-- The choices relationship of a question (Choice rows with matching
question_id). -/
def questionChoices (db : DBState) (qid : String) : List Choice :=
  db.choices.filter (fun c => c.question_id == qid)

/-- The total-score update of submit_answer applied to one player row:
the found player's running total is increased by the points earned. -/
def bumpScore (pid : String) (pts : ℤ) (p : Player) : Player :=
  if p.id == pid then { p with total_score := p.total_score + pts } else p

/-- ScoreService.submit_answer: look up player and question, reject a
duplicate (player, question) answer before any write, validate the choice,
score it, record the Answer and add the points to the player's total.
On error nothing is written (the session is rolled back). -/
def submit_answer (db : DBState) (player_id : String) (a : PlayerAnswer)
    (new_answer_id : String) : Except SubmitError (DBState × SubmitResult) :=
  match db.players.find? (fun p => p.id == player_id) with
  | none => .error .playerNotFound
  | some _ =>
    match db.questions.find? (fun q => q.id == a.question_id) with
    | none => .error .questionNotFound
    | some question =>
      if db.answers.any (fun ans => ans.player_id == player_id && ans.question_id == a.question_id) then
        .error .duplicateAnswer
      else
        match db.choices.find? (fun c => c.id == a.choice_id) with
        | none => .error .invalidAnswer
        | some choice =>
          if choice.question_id ≠ question.id then .error .invalidAnswer
          else
            let pts := calculate_score question.points choice.is_correct a.response_time question.time_limit
            let answer : Answer :=
              { id := new_answer_id
                player_id := player_id
                question_id := a.question_id
                choice_id := a.choice_id
                response_time := a.response_time
                is_correct := choice.is_correct
                points_earned := pts }
            let db' : DBState :=
              { db with
                players := db.players.map (bumpScore player_id pts)
                answers := db.answers ++ [answer] }
            .ok (db', { is_correct := choice.is_correct
                        points_earned := pts
                        correct_choice_id :=
                          ((questionChoices db question.id).find? (fun c => c.is_correct)).map (fun c => c.id) })

/-- The outcomes of WebSocketMessageHandler._handle_player_answer that reach
the submitting player: either an error event or the submission result. -/
inductive WsError where
  | gameNotActive
  | invalidQuestion
  | processFailed
deriving DecidableEq, Repr

/-- WebSocketMessageHandler._handle_player_answer: reject (error event, no
write) unless the room is active; reject unless the submitted question id is
the question at the room's current_question index; otherwise delegate to
ScoreService.submit_answer, whose exceptions are caught and reported as an
error event with the state rolled back. -/
def handle_player_answer (db : DBState) (room : Room) (player : Player) (a : PlayerAnswer)
    (new_answer_id : String) : DBState × Except WsError SubmitResult :=
  if room.status ≠ GameStatus.active then (db, .error .gameNotActive)
  else
    match room.quiz.questions.get? room.current_question with
    | none => (db, .error .processFailed)
    | some cq =>
      if cq.id ≠ a.question_id then (db, .error .invalidQuestion)
      else
        match submit_answer db player.id a new_answer_id with
        | .ok (db', res) => (db', .ok res)
        | .error _ => (db, .error .processFailed)

/-- exceptions.GameStateException raised by the room state machine. -/
inductive GameError where
  | invalidState (operation : String)
deriving DecidableEq, Repr

/-- RoomService.create_room: a fresh room starts waiting at question 0 with
no timestamps. -/
def create_room (id room_code : String) (quiz : Quiz) (host_id host_name : String)
    (max_players : ℕ) : Room :=
  { id := id
    room_code := room_code
    quiz := quiz
    host_id := host_id
    host_name := host_name
    status := GameStatus.waiting
    current_question := 0
    started_at := none
    ended_at := none
    max_players := max_players }

/-- RoomService.start_game: legal only from waiting; sets status active and
started_at. -/
def start_game (room : Room) (now : ℕ) : Except GameError Room :=
  if room.status ≠ GameStatus.waiting then .error (.invalidState "start game")
  else .ok { room with status := GameStatus.active, started_at := some now }

/-- RoomService.next_question: legal only from active; at the last question
(current_question greater or equal to the number of questions minus one, an
int comparison in the source) the room completes and ended_at is set,
otherwise current_question is incremented. -/
def next_question (room : Room) (now : ℕ) : Except GameError Room :=
  if room.status ≠ GameStatus.active then .error (.invalidState "advance question")
  else if (room.quiz.questions.length : ℤ) - 1 ≤ (room.current_question : ℤ) then
    .ok { room with status := GameStatus.completed, ended_at := some now }
  else .ok { room with current_question := room.current_question + 1 }

/-- RoomService.end_game: legal from waiting or active; forces completed. -/
def end_game (room : Room) (now : ℕ) : Except GameError Room :=
  if room.status ≠ GameStatus.waiting ∧ room.status ≠ GameStatus.active then
    .error (.invalidState "end game")
  else .ok { room with status := GameStatus.completed, ended_at := some now }

/-- The invariant maintained by the room state machine: a waiting room sits
at question 0 and an active room's current_question is a valid index. -/
def RoomInv (room : Room) : Prop :=
  (room.status = GameStatus.waiting → room.current_question = 0) ∧
  (room.status = GameStatus.active → room.current_question < room.quiz.questions.length)

/-- schemas.PlayerScore: one leaderboard entry. -/
structure PlayerScore where
  player_id : String
  nickname : String
  total_score : ℤ
  rank : ℕ
  is_connected : Bool
deriving DecidableEq, Repr

/-- schemas.LeaderboardResponse. -/
structure LeaderboardResponse where
  players : List PlayerScore
  total_players : ℕ
  last_updated : ℕ
deriving DecidableEq, Repr

/-- Insertion step of the ORDER BY total_score DESC query result: a player
is placed before the first entry whose total score does not exceed theirs. -/
def insertScoreDesc (p : Player) : List Player → List Player
  | [] => [p]
  | q :: rest =>
    if q.total_score ≤ p.total_score then p :: q :: rest
    else q :: insertScoreDesc p rest

/-- The ORDER BY total_score DESC query result over a list of player rows. -/
def sortByScoreDesc (ps : List Player) : List Player :=
  ps.foldr insertScoreDesc []

/-- The enumerate(players, 1) loop of ScoreService.get_leaderboard: rank is
the 1-based position in the sorted list. -/
def rankPlayers : ℕ → List Player → List PlayerScore
  | _, [] => []
  | r, p :: rest =>
    { player_id := p.player_id
      nickname := p.nickname
      total_score := p.total_score
      rank := r
      is_connected := p.is_connected } :: rankPlayers (r + 1) rest

/-- ScoreService.get_leaderboard: the room's players ordered by total score
descending, ranked by position starting at 1. -/
def get_leaderboard (db : DBState) (room_id : String) (now : ℕ) : LeaderboardResponse :=
  let players := sortByScoreDesc (db.players.filter (fun p => p.room_id == room_id))
  { players := rankPlayers 1 players
    total_players := players.length
    last_updated := now }

/-- schemas.QuestionStats (choice_distribution as a count per choice id). -/
structure QuestionStats where
  question_id : String
  total_answers : ℕ
  correct_answers : ℕ
  average_response_time : ℚ
  choice_distribution : String → ℕ

/-- ScoreService.get_question_results as written in the source: the body
ignores the recorded answers and returns zero statistics. -/
def get_question_results (db : DBState) (room_id question_id : String) : QuestionStats :=
  { question_id := question_id
    total_answers := 0
    correct_answers := 0
    average_response_time := 0
    choice_distribution := fun _ => 0 }

/-- Modelled from the spec: questionStatistics(room, questionId) as the spec
describes it and as ScoreService.get_question_results does not implement it —
total answers, correct-answer count, average response latency and per-choice
selection distribution, all derived by scanning the recorded Answers for the
question. -/
def specQuestionStatistics (db : DBState) (question_id : String) : QuestionStats :=
  let rel := db.answers.filter (fun a => a.question_id == question_id)
  let times := rel.filterMap (fun a => a.response_time)
  { question_id := question_id
    total_answers := rel.length
    correct_answers := (rel.filter (fun a => a.is_correct)).length
    average_response_time := if times.length = 0 then 0 else times.sum / (times.length : ℚ)
    choice_distribution := fun cid => (rel.filter (fun a => a.choice_id == cid)).length }

/-- A live websocket connection; alive records whether send_json succeeds
on it or raises. -/
structure Conn where
  id : String
  alive : Bool
deriving DecidableEq, Repr

/-- websocket_manager.ConnectionManager: host connection per room code, and
player connections per room code keyed by player id. -/
structure ConnectionManager where
  host_connections : List (String × Conn)
  player_connections : List (String × List (String × Conn))
deriving DecidableEq, Repr

/-- A websocket send: delivers (connection id, message) when the connection
is alive, otherwise raises (returns none, caught by the caller). -/
def send_json (c : Conn) (msg : String) : Option (String × String) :=
  if c.alive then some (c.id, msg) else none

/-- The player connections of a room (empty when the room is unknown). -/
def playersOf (m : ConnectionManager) (room_code : String) : List (String × Conn) :=
  (m.player_connections.lookup room_code).getD []

/-- ConnectionManager.send_to_host: best effort; a failed send is logged and
the registry is left untouched. Returns the new registry and deliveries. -/
def send_to_host (m : ConnectionManager) (room_code msg : String) :
    ConnectionManager × List (String × String) :=
  match m.host_connections.lookup room_code with
  | none => (m, [])
  | some c =>
    match send_json c msg with
    | some d => (m, [d])
    | none => (m, [])

/-- ConnectionManager.send_to_player: best effort; a failed send is logged
and the registry is left untouched. -/
def send_to_player (m : ConnectionManager) (room_code player_id msg : String) :
    ConnectionManager × List (String × String) :=
  match (playersOf m room_code).lookup player_id with
  | none => (m, [])
  | some c =>
    match send_json c msg with
    | some d => (m, [d])
    | none => (m, [])

/-- ConnectionManager.disconnect_player: remove the player's connection from
the room's player map (idempotent). -/
def disconnect_player (m : ConnectionManager) (room_code player_id : String) :
    ConnectionManager :=
  { m with
    player_connections := m.player_connections.map (fun rp =>
      if rp.1 == room_code then (rp.1, rp.2.filter (fun pc => pc.1 != player_id)) else rp) }

/-- ConnectionManager.broadcast_to_room: send to every player connection of
the room, collecting the players whose send failed, then disconnect each of
them. One failed recipient does not stop the loop. -/
def broadcast_to_room (m : ConnectionManager) (room_code msg : String) :
    ConnectionManager × List (String × String) :=
  match m.player_connections.lookup room_code with
  | none => (m, [])
  | some players =>
    let delivered := players.filterMap (fun pc => send_json pc.2 msg)
    let disconnected := (players.filter (fun pc => !pc.2.alive)).map (fun pc => pc.1)
    (disconnected.foldl (fun acc pid => disconnect_player acc room_code pid) m, delivered)

/-- ConnectionManager.broadcast_to_all: send to the host, then broadcast to
the room's players. -/
def broadcast_to_all (m : ConnectionManager) (room_code msg : String) :
    ConnectionManager × List (String × String) :=
  let h := send_to_host m room_code msg
  let p := broadcast_to_room h.1 room_code msg
  (p.1, h.2 ++ p.2)

/-- One submission request: the submitting player's row id, the payload and
the generated id for the Answer row. -/
structure SubmitReq where
  player_id : String
  answer : PlayerAnswer
  new_id : String
deriving DecidableEq, Repr

/-- Run one submission against the database; on an exception the session is
rolled back and the state is unchanged. -/
def applySubmit (db : DBState) (r : SubmitReq) : DBState :=
  match submit_answer db r.player_id r.answer r.new_id with
  | .ok (db', _) => db'
  | .error _ => db

/-- Run a sequence of submissions. -/
def applySubmits (db : DBState) (rs : List SubmitReq) : DBState :=
  rs.foldl applySubmit db

/-- Sum of points_earned over the recorded answers of one player row. -/
def sumPoints (answers : List Answer) (pid : String) : ℤ :=
  ((answers.filter (fun a => a.player_id == pid)).map (fun a => a.points_earned)).sum

/-- The running total of a player row id (summed so that it is insensitive
to how many rows carry the id; a database primary key makes it unique). -/
def playerTotal (db : DBState) (pid : String) : ℤ :=
  ((db.players.filter (fun p => p.id == pid)).map (fun p => p.total_score)).sum

/-- Bookkeeping invariant: every player's total_score is the sum of the
points earned across their recorded answers. -/
def ScoreInvariant (db : DBState) : Prop :=
  ∀ p ∈ db.players, p.total_score = sumPoints db.answers p.id

/-- The schema constraints on stored questions (QuestionBase: time_limit at
least 5, points at least 10). -/
def QuestionsWF (db : DBState) : Prop :=
  ∀ q ∈ db.questions, 0 < q.time_limit ∧ 0 ≤ q.points

/-- At most one recorded Answer per (player, question) pair. -/
def atMostOnce (answers : List Answer) : Prop :=
  ∀ pid qid : String,
    (answers.filter (fun a => a.player_id == pid && a.question_id == qid)).length ≤ 1

/-! Concrete fixtures used to exercise the operations. -/

/-- Correct choice of the sample question. -/
def choiceA : Choice :=
  { id := "cA", question_id := "q1", choice_text := "4", is_correct := true, order_index := 0 }

/-- Incorrect choice of the sample question. -/
def choiceB : Choice :=
  { id := "cB", question_id := "q1", choice_text := "5", is_correct := false, order_index := 1 }

/-- Sample question: 30 seconds, 100 points. -/
def question1 : Question :=
  { id := "q1", quiz_id := "quiz1", question_text := "What is 2 + 2?",
    time_limit := 30, points := 100, order_index := 0 }

/-- A second sample question. -/
def question2 : Question :=
  { id := "q2", quiz_id := "quiz1", question_text := "What color is the sky?",
    time_limit := 20, points := 100, order_index := 1 }

/-- A one-question quiz. -/
def quiz1 : Quiz := { id := "quiz1", title := "Sample", questions := [question1] }

/-- An active room playing quiz1 at question 0. -/
def roomActive : Room :=
  { id := "r1", room_code := "ROOM01", quiz := quiz1, host_id := "h1", host_name := "Host",
    status := GameStatus.active, current_question := 0, started_at := some 0,
    ended_at := none, max_players := 50 }

/-- The same room still waiting. -/
def roomWaiting : Room := { roomActive with status := GameStatus.waiting, started_at := none }

/-- A player row in room r1 with no score yet. -/
def player1 : Player :=
  { id := "P1", room_id := "r1", player_id := "alice", nickname := "Alice",
    is_connected := true, total_score := 0 }

/-- A second player row in room r1. -/
def player2 : Player :=
  { id := "P2", room_id := "r1", player_id := "bob", nickname := "Bob",
    is_connected := true, total_score := 0 }

/-- Database with one player, one question, two choices and no answers. -/
def db0 : DBState :=
  { players := [player1], questions := [question1], choices := [choiceA, choiceB], answers := [] }

/-- A recorded answer of player P1 to question q1. -/
def answer1 : Answer :=
  { id := "A1", player_id := "P1", question_id := "q1", choice_id := "cA",
    response_time := some 10, is_correct := true, points_earned := 113 }

/-- Database holding one recorded answer for question q1. -/
def dbOneAnswer : DBState := { db0 with answers := [answer1] }

/-- Two-player room with tied total scores, for the leaderboard. -/
def dbTie : DBState :=
  { players := [{ player1 with total_score := 50 }, { player2 with total_score := 50 }],
    questions := [question1], choices := [choiceA, choiceB], answers := [] }

/-- A submission of the correct choice for q1. -/
def goodAnswer : PlayerAnswer := { question_id := "q1", choice_id := "cA", response_time := some 0 }

/-- A submission naming a question id that is not the current question. -/
def staleAnswer : PlayerAnswer := { question_id := "q9", choice_id := "cA", response_time := some 0 }

/-- A submission with no response time supplied. -/
def noTimeAnswer : PlayerAnswer := { question_id := "q1", choice_id := "cA", response_time := none }

/-- The Answer row recorded for noTimeAnswer. -/
def answerNoTime : Answer :=
  { id := "A1", player_id := "P1", question_id := "q1", choice_id := "cA",
    response_time := none, is_correct := true, points_earned := 100 }

/-- The database after P1 submits noTimeAnswer against db0. -/
def db1 : DBState :=
  { db0 with
    players := [{ player1 with total_score := 100 }]
    answers := [answerNoTime] }

/-- The submission result of noTimeAnswer against db0. -/
def res1 : SubmitResult :=
  { is_correct := true, points_earned := 100, correct_choice_id := some "cA" }

/-- A dead host connection. -/
def hostConnDead : Conn := { id := "hostws", alive := false }

/-- An alive player connection. -/
def connAlive1 : Conn := { id := "ws1", alive := true }

/-- A dead player connection. -/
def connDead2 : Conn := { id := "ws2", alive := false }

/-- A second alive player connection. -/
def connAlive3 : Conn := { id := "ws3", alive := true }

/-- Registry for room R: a dead host, two alive players and a dead player
in between. -/
def cmMixed : ConnectionManager :=
  { host_connections := [("R", hostConnDead)]
    player_connections := [("R", [("p1", connAlive1), ("p2", connDead2), ("p3", connAlive3)])] }

/-! Theorems. -/

theorem int_trunc_intCast (n : ℤ) : int_trunc (n : ℚ) = n := by
  unfold int_trunc
  split
  · exact Int.floor_intCast n
  · exact Int.ceil_intCast n

theorem int_trunc_nonneg {q : ℚ} (h : 0 ≤ q) : 0 ≤ int_trunc q := by
  unfold int_trunc
  rw [if_pos h]
  exact Int.floor_nonneg.mpr h

theorem time_bonus_nonneg (rt : ℚ) (tl : ℤ) (htl : 0 < tl) :
    0 ≤ calculate_time_bonus rt tl maxBonusDefault := by
  unfold calculate_time_bonus
  have htl' : (0 : ℚ) < (tl : ℚ) := by exact_mod_cast htl
  split
  · exact le_refl 0
  · next h =>
    push_neg at h
    apply le_min
    · apply mul_nonneg
      · exact div_nonneg (by linarith) (le_of_lt htl')
      · norm_num [maxBonusDefault]
    · norm_num [maxBonusDefault]

theorem calculate_score_incorrect (b : ℤ) (rt : Option ℚ) (tl : ℤ) :
    calculate_score b false rt tl = 0 := by
  simp [calculate_score]

theorem time_bonus_full (rt : ℚ) (tl : ℤ) (htl : 0 < tl) (hrt : rt ≤ 0) :
    calculate_time_bonus rt tl maxBonusDefault = maxBonusDefault := by
  unfold calculate_time_bonus
  have htl' : (0 : ℚ) < (tl : ℚ) := by exact_mod_cast htl
  rw [if_neg (by push_neg; linarith)]
  apply min_eq_right
  have h1 : (1 : ℚ) ≤ ((tl : ℚ) - rt) / (tl : ℚ) := by
    rw [le_div_iff htl']
    linarith
  calc maxBonusDefault = 1 * maxBonusDefault := by ring
    _ ≤ ((tl : ℚ) - rt) / (tl : ℚ) * maxBonusDefault := by
        apply mul_le_mul_of_nonneg_right h1
        norm_num [maxBonusDefault]

theorem time_bonus_late (rt : ℚ) (tl : ℤ) (hrt : (tl : ℚ) ≤ rt) :
    calculate_time_bonus rt tl maxBonusDefault = 0 := by
  unfold calculate_time_bonus
  rw [if_pos hrt]

theorem calculate_score_nonneg (b : ℤ) (ic : Bool) (rt : Option ℚ) (tl : ℤ)
    (hb : 0 ≤ b) (htl : 0 < tl) : 0 ≤ calculate_score b ic rt tl := by
  unfold calculate_score
  split
  · exact le_refl 0
  · match rt with
    | none => exact hb
    | some t =>
      apply int_trunc_nonneg
      apply mul_nonneg
      · exact_mod_cast hb
      · have := time_bonus_nonneg t tl htl
        linarith

/-- C3: a correct choice with latency 0 under a 30-second limit and 100 base
points earns exactly 120 points; with latency exactly 30 it earns exactly
100; an incorrect choice earns 0 regardless of latency. -/
theorem C3_round_trip_points :
    calculate_score 100 true (some 0) 30 = 120 ∧
    calculate_score 100 true (some 30) 30 = 100 ∧
    ∀ (b : ℤ) (rt : Option ℚ) (tl : ℤ), calculate_score b false rt tl = 0 := by
  refine ⟨?_, ?_, fun b rt tl => calculate_score_incorrect b rt tl⟩
  · have hb : calculate_time_bonus 0 30 maxBonusDefault = maxBonusDefault :=
      time_bonus_full 0 30 (by norm_num) (le_refl 0)
    simp only [calculate_score, hb]
    norm_num [int_trunc, maxBonusDefault]
  · have hb : calculate_time_bonus 30 30 maxBonusDefault = 0 :=
      time_bonus_late 30 30 (by norm_num)
    simp only [calculate_score, hb]
    norm_num [int_trunc]

/-- C4: for a correct answer, a latency that is zero or negative earns the
full 20 percent bonus (treated as instant), a latency at or past the time
limit earns plain base points, and the admission decision of submit_answer
never depends on the supplied latency (late answers are scored, not
rejected). -/
theorem C4_latency_edge_cases :
    ∀ (rt : ℚ) (tl b : ℤ), 0 < tl →
      (rt ≤ 0 →
        calculate_time_bonus rt tl maxBonusDefault = maxBonusDefault ∧
        calculate_score b true (some rt) tl = int_trunc ((b : ℚ) * (1 + maxBonusDefault))) ∧
      ((tl : ℚ) ≤ rt →
        calculate_time_bonus rt tl maxBonusDefault = 0 ∧
        calculate_score b true (some rt) tl = b) ∧
      (∀ (db : DBState) (pid : String) (a : PlayerAnswer) (nid : String) (rt' : Option ℚ),
        (submit_answer db pid { a with response_time := rt' } nid).isOk =
          (submit_answer db pid a nid).isOk) := by
  intro rt tl b htl
  refine ⟨fun hrt => ⟨time_bonus_full rt tl htl hrt, ?_⟩,
          fun hrt => ⟨time_bonus_late rt tl hrt, ?_⟩, ?_⟩
  · simp [calculate_score, time_bonus_full rt tl htl hrt]
  · simp only [calculate_score, time_bonus_late rt tl hrt]
    norm_num [int_trunc_intCast]
  · intro db pid a nid rt'
    cases h1 : db.players.find? (fun p => p.id == pid) with
    | none => simp [submit_answer, h1]
    | some player =>
      cases h2 : db.questions.find? (fun q => q.id == a.question_id) with
      | none => simp [submit_answer, h1, h2]
      | some question =>
        cases h3 : db.answers.any (fun ans => ans.player_id == pid && ans.question_id == a.question_id) with
        | true => simp [submit_answer, h1, h2, h3]
        | false =>
          cases h4 : db.choices.find? (fun c => c.id == a.choice_id) with
          | none => simp [submit_answer, h1, h2, h3, h4]
          | some choice =>
            by_cases h5 : choice.question_id = question.id
            · simp [submit_answer, h1, h2, h3, h4, h5, Except.isOk, Except.toBool]
            · simp [submit_answer, h1, h2, h3, h4, h5, Except.isOk, Except.toBool]

/-- Witness for C4 at latency -3 (full bonus) and latency 35 over a
30-second limit (plain base points). -/
theorem C4_latency_edge_cases_witness :
    calculate_time_bonus (-3) 30 maxBonusDefault = maxBonusDefault ∧
    calculate_score 100 true (some 35) 30 = 100 := by
  have h1 := C4_latency_edge_cases (-3) 30 100 (by norm_num)
  have h2 := C4_latency_edge_cases 35 30 100 (by norm_num)
  exact ⟨(h1.1 (by norm_num)).1, (h2.2.1 (by norm_num)).2⟩

theorem submit_ok_spec {db : DBState} {pid : String} {a : PlayerAnswer} {nid : String}
    {db' : DBState} {res : SubmitResult}
    (h : submit_answer db pid a nid = Except.ok (db', res)) :
    ∃ question,
      db.questions.find? (fun q => q.id == a.question_id) = some question ∧
      res.points_earned =
        calculate_score question.points res.is_correct a.response_time question.time_limit ∧
      (db.answers.any fun ans => ans.player_id == pid && ans.question_id == a.question_id) = false ∧
      db'.questions = db.questions ∧
      db'.choices = db.choices ∧
      db'.answers = db.answers ++
        [{ id := nid, player_id := pid, question_id := a.question_id, choice_id := a.choice_id,
           response_time := a.response_time, is_correct := res.is_correct,
           points_earned := res.points_earned }] ∧
      db'.players = db.players.map (bumpScore pid res.points_earned) ∧
      (db.players.find? fun p => p.id == pid).isSome = true := by
  unfold submit_answer at h
  split at h
  · exact absurd h (by simp)
  next player hfp =>
    split at h
    · exact absurd h (by simp)
    next question hfq =>
      split at h
      · exact absurd h (by simp)
      next hany =>
        split at h
        · exact absurd h (by simp)
        next choice hfc =>
          split at h
          · exact absurd h (by simp)
          next hqid =>
            simp only [Except.ok.injEq, Prod.mk.injEq] at h
            obtain ⟨hdb, hres⟩ := h
            subst hdb
            subst hres
            exact ⟨question, hfq, by simp, by simpa using hany, by simp, by simp, by simp,
              by simp, by simp [hfp]⟩

/-- C1: an answer submission is rejected with the game-not-active error
(InvalidState) when the room is not active, and with the invalid-question
error (InvalidQuestion / InvalidInput) when the submitted question id is not
the question at the room's current_question index; in both cases the
database is returned unchanged, so no Answer is recorded and no total score
moves. -/
theorem C1_admission_rejections :
    ∀ (db : DBState) (room : Room) (player : Player) (a : PlayerAnswer) (nid : String),
      (room.status ≠ GameStatus.active →
        handle_player_answer db room player a nid = (db, Except.error WsError.gameNotActive)) ∧
      (∀ cq, room.status = GameStatus.active →
        room.quiz.questions.get? room.current_question = some cq →
        cq.id ≠ a.question_id →
        handle_player_answer db room player a nid = (db, Except.error WsError.invalidQuestion)) := by
  intro db room player a nid
  constructor
  · intro h
    simp [handle_player_answer, h]
  · intro cq hact hget hne
    unfold handle_player_answer
    rw [if_neg (by simp [hact])]
    simp only [hget]
    rw [if_pos hne]

/-- Witness for C1: a waiting room rejects a submission with the
game-not-active error, and an active room rejects a submission for a
question other than the current one, both leaving the database unchanged. -/
theorem C1_admission_rejections_witness :
    handle_player_answer db0 roomWaiting player1 goodAnswer "A1" =
      (db0, Except.error WsError.gameNotActive) ∧
    handle_player_answer db0 roomActive player1 staleAnswer "A1" =
      (db0, Except.error WsError.invalidQuestion) := by
  refine ⟨(C1_admission_rejections db0 roomWaiting player1 goodAnswer "A1").1 (by decide),
          (C1_admission_rejections db0 roomActive player1 staleAnswer "A1").2 question1
            (by decide) (by decide) (by decide)⟩

theorem bumpScore_id (pid : String) (pts : ℤ) (p : Player) :
    (bumpScore pid pts p).id = p.id := by
  unfold bumpScore
  split <;> rfl

theorem bumpScore_total_le (pid : String) (pts : ℤ) (p : Player) (h : 0 ≤ pts) :
    p.total_score ≤ (bumpScore pid pts p).total_score := by
  unfold bumpScore
  split
  · simp only [Player.total_score]
    linarith
  · exact le_refl _

theorem find?_isSome_map_bump (l : List Player) (pid : String) (pts : ℤ)
    (h : (l.find? fun p => p.id == pid).isSome = true) :
    ((l.map (bumpScore pid pts)).find? (fun p => p.id == pid)).isSome = true := by
  induction l with
  | nil => simp at h
  | cons p l ih =>
    simp only [List.map_cons]
    cases hb : (p.id == pid) with
    | true =>
      rw [List.find?_cons_of_pos _ (by rw [bumpScore_id]; exact hb)]
      simp
    | false =>
      rw [List.find?_cons_of_neg _ (by simp [hb])] at h
      rw [List.find?_cons_of_neg _ (by rw [bumpScore_id]; simp [hb])]
      exact ih h

theorem submit_answer_duplicate (db : DBState) (pid : String) (a : PlayerAnswer) (nid : String)
    (hp : (db.players.find? fun p => p.id == pid).isSome = true)
    (hq : (db.questions.find? fun q => q.id == a.question_id).isSome = true)
    (ha : db.answers.any (fun ans => ans.player_id == pid && ans.question_id == a.question_id) = true) :
    submit_answer db pid a nid = Except.error SubmitError.duplicateAnswer := by
  obtain ⟨p, hp'⟩ := Option.isSome_iff_exists.mp hp
  obtain ⟨q, hq'⟩ := Option.isSome_iff_exists.mp hq
  unfold submit_answer
  rw [hp', hq']
  simp [ha]

/-- C2: successful submission preserves the at-most-one-answer-per
(player, question) invariant; a second submission by the same player for the
same question then fails with DuplicateAnswer; and no submission can succeed
while a matching Answer already exists (the check short-circuits before any
write, so the recorded Answer and the total score are untouched). -/
theorem C2_at_most_one_answer :
    ∀ (db : DBState) (pid : String) (a : PlayerAnswer) (nid : String),
      (atMostOnce db.answers → ∀ db' res, submit_answer db pid a nid = Except.ok (db', res) →
        atMostOnce db'.answers) ∧
      (∀ db' res nid', submit_answer db pid a nid = Except.ok (db', res) →
        submit_answer db' pid a nid' = Except.error SubmitError.duplicateAnswer) ∧
      ((∃ ans ∈ db.answers, ans.player_id = pid ∧ ans.question_id = a.question_id) →
        ∀ r, submit_answer db pid a nid ≠ Except.ok r) := by
  intro db pid a nid
  refine ⟨?_, ?_, ?_⟩
  · intro ham db' res h
    obtain ⟨question, hfq, hpts, hany, hq, hc, hans, hpl, hsome⟩ := submit_ok_spec h
    intro pid' qid'
    rw [hans, List.filter_append, List.length_append]
    by_cases hpp : pid = pid'
    · by_cases hqq : a.question_id = qid'
      · subst hpp
        subst hqq
        have hz : (db.answers.filter fun ans =>
            ans.player_id == pid && ans.question_id == a.question_id) = [] := by
          rw [List.filter_eq_nil]
          intro x hx hcontra
          have hx' : db.answers.any
              (fun ans => ans.player_id == pid && ans.question_id == a.question_id) = true :=
            List.any_eq_true.mpr ⟨x, hx, hcontra⟩
          rw [hany] at hx'
          exact absurd hx' (by simp)
        rw [hz]
        simp
      · have : ((List.filter (fun ans => ans.player_id == pid' && ans.question_id == qid')
            [{ id := nid, player_id := pid, question_id := a.question_id, choice_id := a.choice_id,
               response_time := a.response_time, is_correct := res.is_correct,
               points_earned := res.points_earned : Answer}])) = [] := by
          simp [hqq]
        rw [this]
        simpa using ham pid' qid'
    · have : ((List.filter (fun ans => ans.player_id == pid' && ans.question_id == qid')
          [{ id := nid, player_id := pid, question_id := a.question_id, choice_id := a.choice_id,
             response_time := a.response_time, is_correct := res.is_correct,
             points_earned := res.points_earned : Answer}])) = [] := by
        simp [hpp]
      rw [this]
      simpa using ham pid' qid'
  · intro db' res nid' h
    obtain ⟨question, hfq, hpts, hany, hq, hc, hans, hpl, hsome⟩ := submit_ok_spec h
    apply submit_answer_duplicate
    · rw [hpl]
      exact find?_isSome_map_bump db.players pid res.points_earned hsome
    · rw [hq, hfq]
      simp
    · rw [hans, List.any_append]
      simp
  · rintro ⟨ans, hmem, hp, hq⟩ ⟨db', res⟩ hok
    obtain ⟨question, hfq, hpts, hany, _⟩ := submit_ok_spec hok
    have hx : db.answers.any
        (fun x => x.player_id == pid && x.question_id == a.question_id) = true :=
      List.any_eq_true.mpr ⟨ans, hmem, by simp [hp, hq]⟩
    rw [hany] at hx
    exact absurd hx (by simp)

/-- Witness for C2: after P1 successfully answers q1 once, the identical
resubmission fails with DuplicateAnswer, and the answer table still honours
the at-most-one invariant. -/
theorem C2_at_most_one_answer_witness :
    submit_answer db0 "P1" noTimeAnswer "A1" = Except.ok (db1, res1) ∧
    submit_answer db1 "P1" noTimeAnswer "A2" = Except.error SubmitError.duplicateAnswer ∧
    atMostOnce db1.answers := by
  have hok : submit_answer db0 "P1" noTimeAnswer "A1" = Except.ok (db1, res1) := by decide
  have h := C2_at_most_one_answer db0 "P1" noTimeAnswer "A1"
  exact ⟨hok, h.2.1 db1 res1 "A2" hok,
    h.1 (by intro pid qid; simp [atMostOnce, db0]) db1 res1 hok⟩

/-- C5: a fresh room satisfies the state-machine invariant (waiting at
question 0, and while active current_question indexes a real question); the
invariant is preserved by start, advance and end on a nonempty quiz;
advancing at the last index completes the room (setting ended_at) instead of
incrementing; and advance on a non-active room (in particular an already
completed one) fails with InvalidState and changes nothing. -/
theorem C5_room_progression :
    ∀ (room : Room) (now : ℕ),
      (∀ (id code : String) (quiz : Quiz) (host hname : String) (cap : ℕ),
        RoomInv (create_room id code quiz host hname cap)) ∧
      (1 ≤ room.quiz.questions.length → RoomInv room →
        ∀ r', (start_game room now = Except.ok r' ∨ next_question room now = Except.ok r' ∨
               end_game room now = Except.ok r') → RoomInv r') ∧
      (room.status = GameStatus.active →
        room.quiz.questions.length ≤ room.current_question + 1 →
        next_question room now =
          Except.ok { room with status := GameStatus.completed, ended_at := some now }) ∧
      (room.status ≠ GameStatus.active →
        next_question room now = Except.error (GameError.invalidState "advance question")) := by
  intro room now
  refine ⟨?_, ?_, ?_, ?_⟩
  · intro id code quiz host hname cap
    constructor
    · intro _
      rfl
    · intro h
      simp [create_room] at h
  · intro hlen hinv r' hop
    rcases hop with hop | hop | hop
    · unfold start_game at hop
      split at hop
      · exact absurd hop (by simp)
      · next hw =>
        have hw' : room.status = GameStatus.waiting := not_not.mp hw
        injection hop with h'
        subst h'
        constructor
        · intro h
          simp at h
        · intro _
          show room.current_question < room.quiz.questions.length
          have h0 := hinv.1 hw'
          omega
    · unfold next_question at hop
      split at hop
      · exact absurd hop (by simp)
      · next hact' =>
        have ha : room.status = GameStatus.active := not_not.mp hact'
        split at hop
        · injection hop with h'
          subst h'
          constructor
          · intro h
            simp at h
          · intro h
            simp at h
        · next hlt =>
          injection hop with h'
          subst h'
          constructor
          · intro h
            simp [ha] at h
          · intro _
            show room.current_question + 1 < room.quiz.questions.length
            push_neg at hlt
            omega
    · unfold end_game at hop
      split at hop
      · exact absurd hop (by simp)
      · injection hop with h'
        subst h'
        constructor
        · intro h
          simp at h
        · intro h
          simp at h
  · intro hact hlen
    unfold next_question
    rw [if_neg (by simp [hact])]
    rw [if_pos (by omega)]
  · intro hact
    unfold next_question
    rw [if_pos hact]

/-- Witness for C5: the one-question active room completes on advance, a
waiting room cannot advance, and a freshly started room satisfies the
invariant. -/
theorem C5_room_progression_witness :
    next_question roomActive 5 =
      Except.ok { roomActive with status := GameStatus.completed, ended_at := some 5 } ∧
    next_question roomWaiting 5 = Except.error (GameError.invalidState "advance question") ∧
    RoomInv { roomWaiting with status := GameStatus.active, started_at := some 3 } := by
  have h1 := C5_room_progression roomActive 5
  have h2 := C5_room_progression roomWaiting 5
  have h3 := C5_room_progression roomWaiting 3
  refine ⟨h1.2.2.1 rfl (by decide), h2.2.2.2 (by decide), ?_⟩
  exact h3.2.1 (by decide) ⟨fun _ => rfl, fun h => absurd h (by decide)⟩ _ (Or.inl (by decide))

theorem submit_pts_nonneg {db : DBState} {pid : String} {a : PlayerAnswer} {nid : String}
    {db' : DBState} {res : SubmitResult} (hwf : QuestionsWF db)
    (h : submit_answer db pid a nid = Except.ok (db', res)) : 0 ≤ res.points_earned := by
  obtain ⟨q, hfq, hpts, _⟩ := submit_ok_spec h
  have hmem := List.mem_of_find?_eq_some hfq
  rw [hpts]
  exact calculate_score_nonneg _ _ _ _ (hwf q hmem).2 (hwf q hmem).1

theorem sum_filter_map_bump (l : List Player) (tgt qpid : String) (pts : ℤ) (hpts : 0 ≤ pts) :
    ((l.filter (fun p => p.id == qpid)).map (fun p => p.total_score)).sum ≤
    (((l.map (bumpScore tgt pts)).filter (fun p => p.id == qpid)).map
        (fun p => p.total_score)).sum := by
  induction l with
  | nil => simp
  | cons p l ih =>
    simp only [List.map_cons, List.filter_cons, bumpScore_id]
    by_cases hq : (p.id == qpid) = true
    · rw [if_pos hq, if_pos hq]
      simp only [List.map_cons, List.sum_cons]
      have hb := bumpScore_total_le tgt pts p hpts
      linarith [ih]
    · rw [if_neg hq, if_neg hq]
      exact ih

theorem applySubmit_questions (db : DBState) (r : SubmitReq) :
    (applySubmit db r).questions = db.questions := by
  unfold applySubmit
  cases h : submit_answer db r.player_id r.answer r.new_id with
  | error e => rfl
  | ok pr =>
    obtain ⟨db', res⟩ := pr
    obtain ⟨q, hfq, hpts, hany, hqs, _⟩ := submit_ok_spec h
    exact hqs

theorem applySubmit_wf (db : DBState) (r : SubmitReq) (hwf : QuestionsWF db) :
    QuestionsWF (applySubmit db r) := by
  intro q hq
  rw [applySubmit_questions] at hq
  exact hwf q hq

theorem playerTotal_applySubmit_mono (db : DBState) (r : SubmitReq) (pid : String)
    (hwf : QuestionsWF db) : playerTotal db pid ≤ playerTotal (applySubmit db r) pid := by
  unfold applySubmit
  cases h : submit_answer db r.player_id r.answer r.new_id with
  | error e => exact le_refl _
  | ok pr =>
    obtain ⟨db', res⟩ := pr
    obtain ⟨q, hfq, hpts, hany, hqs, hcs, hans, hpl, hsome⟩ := submit_ok_spec h
    have hnn : 0 ≤ res.points_earned := submit_pts_nonneg hwf h
    show playerTotal db pid ≤ playerTotal db' pid
    unfold playerTotal
    rw [hpl]
    exact sum_filter_map_bump db.players r.player_id pid res.points_earned hnn

theorem sumPoints_append_single (answers : List Answer) (ansRec : Answer) (pid : String) :
    sumPoints (answers ++ [ansRec]) pid =
      sumPoints answers pid + (if ansRec.player_id == pid then ansRec.points_earned else 0) := by
  unfold sumPoints
  rw [List.filter_append, List.map_append, List.sum_append]
  congr 1
  by_cases h : (ansRec.player_id == pid) = true
  · simp [List.filter_cons, h]
  · simp [List.filter_cons, h]

theorem scoreInv_applySubmit (db : DBState) (r : SubmitReq) (hsi : ScoreInvariant db) :
    ScoreInvariant (applySubmit db r) := by
  unfold applySubmit
  cases h : submit_answer db r.player_id r.answer r.new_id with
  | error e => exact hsi
  | ok pr =>
    obtain ⟨db', res⟩ := pr
    obtain ⟨q, hfq, hpts, hany, hqs, hcs, hans, hpl, hsome⟩ := submit_ok_spec h
    show ScoreInvariant db'
    intro p' hp'
    rw [hpl] at hp'
    obtain ⟨p, hp, hfa⟩ := List.mem_map.mp hp'
    have hself := hsi p hp
    rw [← hfa, hans, bumpScore_id, sumPoints_append_single]
    unfold bumpScore
    by_cases hid : p.id = r.player_id
    · rw [if_pos (by simp [hid]), if_pos (by simp [hid])]
      simp only [Player.total_score]
      rw [hself]
    · rw [if_neg (by simp [hid]), if_neg (by simp; intro hc; exact hid hc.symm)]
      simp [hself]

/-- C6: across any sequence of submissions the running total of every
player row never decreases; every successful submission earns nonnegative
points; and if every total equals the sum of points earned over the player's
recorded answers, that bookkeeping equality still holds after the sequence
(each success appends one Answer and adds exactly its points_earned). -/
theorem C6_score_monotone_bookkeeping :
    ∀ (db : DBState) (rs : List SubmitReq) (pid : String), QuestionsWF db →
      playerTotal db pid ≤ playerTotal (applySubmits db rs) pid ∧
      (ScoreInvariant db → ScoreInvariant (applySubmits db rs)) ∧
      (∀ (r : SubmitReq) (db' : DBState) (res : SubmitResult),
        submit_answer db r.player_id r.answer r.new_id = Except.ok (db', res) →
        0 ≤ res.points_earned) := by
  intro db rs
  induction rs generalizing db with
  | nil =>
    intro pid hwf
    exact ⟨le_refl _, fun h => h, fun r db' res h => submit_pts_nonneg hwf h⟩
  | cons r rs ih =>
    intro pid hwf
    have hwf' := applySubmit_wf db r hwf
    refine ⟨?_, ?_, fun r' db' res h => submit_pts_nonneg hwf h⟩
    · calc playerTotal db pid ≤ playerTotal (applySubmit db r) pid :=
        playerTotal_applySubmit_mono db r pid hwf
      _ ≤ playerTotal (applySubmits (applySubmit db r) rs) pid := (ih (applySubmit db r) pid hwf').1
    · intro hsi
      exact (ih (applySubmit db r) pid hwf').2.1 (scoreInv_applySubmit db r hsi)

/-- Witness for C6: P1 submits twice in sequence (the second is the
duplicate and is rolled back); the total never decreased and the
bookkeeping invariant holds on the result. -/
theorem C6_score_monotone_bookkeeping_witness :
    playerTotal db0 "P1" ≤
      playerTotal (applySubmits db0 [⟨"P1", noTimeAnswer, "A1"⟩, ⟨"P1", noTimeAnswer, "A2"⟩]) "P1" ∧
    ScoreInvariant (applySubmits db0 [⟨"P1", noTimeAnswer, "A1"⟩, ⟨"P1", noTimeAnswer, "A2"⟩]) := by
  have h := C6_score_monotone_bookkeeping db0
    [⟨"P1", noTimeAnswer, "A1"⟩, ⟨"P1", noTimeAnswer, "A2"⟩] "P1"
    (by intro q hq; simp [db0] at hq; subst hq; constructor <;> decide)
  refine ⟨h.1, h.2.1 ?_⟩
  intro p hp
  simp [db0] at hp
  subst hp
  decide

theorem insertScoreDesc_perm (p : Player) (l : List Player) :
    List.Perm (insertScoreDesc p l) (p :: l) := by
  induction l with
  | nil => exact List.Perm.refl _
  | cons q rest ih =>
    unfold insertScoreDesc
    split
    · exact List.Perm.refl _
    · exact (List.Perm.cons q ih).trans (List.Perm.swap p q rest)

theorem sortByScoreDesc_perm (ps : List Player) : List.Perm (sortByScoreDesc ps) ps := by
  induction ps with
  | nil => exact List.Perm.refl _
  | cons p ps ih =>
    show List.Perm (insertScoreDesc p (sortByScoreDesc ps)) (p :: ps)
    exact (insertScoreDesc_perm p _).trans (List.Perm.cons p ih)

theorem insertScoreDesc_sorted (p : Player) (l : List Player)
    (h : l.Pairwise (fun a b => b.total_score ≤ a.total_score)) :
    (insertScoreDesc p l).Pairwise (fun a b => b.total_score ≤ a.total_score) := by
  induction l with
  | nil => simp [insertScoreDesc]
  | cons q rest ih =>
    rw [List.pairwise_cons] at h
    obtain ⟨hq, hrest⟩ := h
    unfold insertScoreDesc
    split
    · next hle =>
      rw [List.pairwise_cons]
      refine ⟨?_, List.pairwise_cons.mpr ⟨hq, hrest⟩⟩
      intro b hb
      rcases List.mem_cons.mp hb with rfl | hb'
      · exact hle
      · exact le_trans (hq b hb') hle
    · next hgt =>
      push_neg at hgt
      rw [List.pairwise_cons]
      refine ⟨?_, ih hrest⟩
      intro b hb
      have hb' := (insertScoreDesc_perm p rest).mem_iff.mp hb
      rcases List.mem_cons.mp hb' with rfl | hb''
      · exact le_of_lt hgt
      · exact hq b hb''

theorem sortByScoreDesc_sorted (ps : List Player) :
    (sortByScoreDesc ps).Pairwise (fun a b => b.total_score ≤ a.total_score) := by
  induction ps with
  | nil => simp [sortByScoreDesc]
  | cons p ps ih =>
    show (insertScoreDesc p (sortByScoreDesc ps)).Pairwise _
    exact insertScoreDesc_sorted p _ ih

theorem rankPlayers_length (r : ℕ) (l : List Player) :
    (rankPlayers r l).length = l.length := by
  induction l generalizing r with
  | nil => rfl
  | cons p l ih => simp [rankPlayers, ih]

theorem rankPlayers_map_rank (r : ℕ) (l : List Player) :
    (rankPlayers r l).map (fun s => s.rank) = List.range' r l.length := by
  induction l generalizing r with
  | nil => rfl
  | cons p l ih => simp [rankPlayers, List.range'_succ, ih]

theorem rankPlayers_map_payload (r : ℕ) (l : List Player) :
    (rankPlayers r l).map (fun s => (s.player_id, s.nickname, s.total_score, s.is_connected)) =
      l.map (fun p => (p.player_id, p.nickname, p.total_score, p.is_connected)) := by
  induction l generalizing r with
  | nil => rfl
  | cons p l ih => simp [rankPlayers, ih]

theorem mem_rankPlayers {s : PlayerScore} {r : ℕ} {l : List Player}
    (h : s ∈ rankPlayers r l) : ∃ p ∈ l, s.total_score = p.total_score := by
  induction l generalizing r with
  | nil => simp [rankPlayers] at h
  | cons p l ih =>
    simp only [rankPlayers, List.mem_cons] at h
    rcases h with rfl | h'
    · exact ⟨p, List.mem_cons_self p l, rfl⟩
    · obtain ⟨p', hp', hs⟩ := ih h'
      exact ⟨p', List.mem_cons_of_mem p hp', hs⟩

theorem rankPlayers_pairwise (r : ℕ) (l : List Player)
    (h : l.Pairwise (fun a b => b.total_score ≤ a.total_score)) :
    (rankPlayers r l).Pairwise (fun a b => b.total_score ≤ a.total_score) := by
  induction l generalizing r with
  | nil => simp [rankPlayers]
  | cons p l ih =>
    rw [List.pairwise_cons] at h
    obtain ⟨hp, hl⟩ := h
    simp only [rankPlayers]
    rw [List.pairwise_cons]
    refine ⟨?_, ih (r + 1) hl⟩
    intro s hs
    obtain ⟨p', hp', hsp⟩ := mem_rankPlayers hs
    simp only [PlayerScore.total_score]
    rw [hsp]
    exact hp p' hp'

/-- C7: the leaderboard lists exactly the room's players (same payloads, as
a permutation), ordered by total score descending, with ranks assigned
densely from 1 by position, and total_players is the room's player count. -/
theorem C7_leaderboard_sorted_ranked :
    ∀ (db : DBState) (rid : String) (now : ℕ),
      (get_leaderboard db rid now).players.Pairwise
        (fun a b => b.total_score ≤ a.total_score) ∧
      (get_leaderboard db rid now).players.map (fun s => s.rank) =
        List.range' 1 (get_leaderboard db rid now).players.length ∧
      List.Perm
        ((get_leaderboard db rid now).players.map
          (fun s => (s.player_id, s.nickname, s.total_score, s.is_connected)))
        ((db.players.filter (fun p => p.room_id == rid)).map
          (fun p => (p.player_id, p.nickname, p.total_score, p.is_connected))) ∧
      (get_leaderboard db rid now).total_players =
        (db.players.filter (fun p => p.room_id == rid)).length := by
  intro db rid now
  simp only [get_leaderboard]
  refine ⟨?_, ?_, ?_, ?_⟩
  · exact rankPlayers_pairwise 1 _ (sortByScoreDesc_sorted _)
  · rw [rankPlayers_map_rank, rankPlayers_length]
  · rw [rankPlayers_map_payload]
    exact List.Perm.map _ (sortByScoreDesc_perm _)
  · exact (sortByScoreDesc_perm _).length_eq

/-- C10: leaderboard ranks are exactly the positions 1..n with no repeats,
so tied players receive distinct consecutive ranks rather than sharing one;
on a two-player room with equal scores the ranks are 1 and 2. -/
theorem C10_ranks_positional_distinct :
    (∀ (db : DBState) (rid : String) (now : ℕ),
      (get_leaderboard db rid now).players.map (fun s => s.rank) =
        List.range' 1 (get_leaderboard db rid now).players.length ∧
      ((get_leaderboard db rid now).players.map (fun s => s.rank)).Nodup) ∧
    (get_leaderboard dbTie "r1" 0).players.map (fun s => (s.total_score, s.rank)) =
      [(50, 1), (50, 2)] := by
  constructor
  · intro db rid now
    simp only [get_leaderboard]
    constructor
    · rw [rankPlayers_map_rank, rankPlayers_length]
    · rw [rankPlayers_map_rank]
      exact List.nodup_range' _ _
  · decide

/-- C8: the question-statistics operation is a stub. On a database holding
one recorded (correct) answer for question q1, get_question_results still
reports zero total answers, zero correct answers and an empty choice
distribution, while the statistics the spec describes (derived by scanning
the recorded Answers) are one, one, and one selection of choice cA. -/
theorem C8_question_stats_stub :
    (get_question_results dbOneAnswer "r1" "q1").total_answers = 0 ∧
    (get_question_results dbOneAnswer "r1" "q1").correct_answers = 0 ∧
    (get_question_results dbOneAnswer "r1" "q1").choice_distribution "cA" = 0 ∧
    (specQuestionStatistics dbOneAnswer "q1").total_answers = 1 ∧
    (specQuestionStatistics dbOneAnswer "q1").correct_answers = 1 ∧
    (specQuestionStatistics dbOneAnswer "q1").choice_distribution "cA" = 1 := by
  refine ⟨rfl, rfl, rfl, ?_, ?_, ?_⟩ <;>
    simp [specQuestionStatistics, dbOneAnswer, db0, answer1]

theorem send_to_host_fst (m : ConnectionManager) (room msg : String) :
    (send_to_host m room msg).1 = m := by
  unfold send_to_host
  split
  · rfl
  · split <;> rfl

theorem disconnect_player_host (m : ConnectionManager) (room pid : String) :
    (disconnect_player m room pid).host_connections = m.host_connections := rfl

theorem lookup_map_update (l : List (String × List (String × Conn))) (room pid : String) :
    (l.map (fun rp =>
      if rp.1 == room then (rp.1, rp.2.filter (fun pc => pc.1 != pid)) else rp)).lookup room =
      (l.lookup room).map (fun ps => ps.filter (fun pc => pc.1 != pid)) := by
  induction l with
  | nil => rfl
  | cons rp l ih =>
    obtain ⟨k, v⟩ := rp
    by_cases h : k = room
    · subst h
      have hhead : (if (((k : String), v).1 == k) = true then
          ((k, v).1, List.filter (fun pc => pc.1 != pid) (k, v).2) else (k, v)) =
          (k, List.filter (fun pc => pc.1 != pid) v) := by simp
      rw [List.map_cons, hhead]
      simp [List.lookup]
    · have h1 : (k == room) = false := by simp [h]
      have h2 : (room == k) = false := by simp; exact fun hc => h hc.symm
      have hhead : (if (((k : String), v).1 == room) = true then
          ((k, v).1, List.filter (fun pc => pc.1 != pid) (k, v).2) else (k, v)) =
          (k, v) := by simp [h1]
      rw [List.map_cons, hhead]
      simp only [List.lookup, h2]
      exact ih

theorem playersOf_disconnect (m : ConnectionManager) (room pid : String) :
    playersOf (disconnect_player m room pid) room =
      (playersOf m room).filter (fun pc => pc.1 != pid) := by
  unfold playersOf disconnect_player
  simp only []
  rw [lookup_map_update]
  cases m.player_connections.lookup room <;> simp

theorem playersOf_foldl_disconnect (L : List String) (m : ConnectionManager) (room : String) :
    playersOf (L.foldl (fun acc pid => disconnect_player acc room pid) m) room =
      (playersOf m room).filter (fun pc => !(L.any (fun x => pc.1 == x))) := by
  induction L generalizing m with
  | nil => simp
  | cons pid L ih =>
    simp only [List.foldl_cons]
    rw [ih, playersOf_disconnect, List.filter_filter]
    congr 1
    funext pc
    cases hb : (pc.1 == pid) <;> cases ha : (L.any fun x => pc.1 == x) <;>
      simp [List.any_cons, bne, hb, ha]

theorem host_foldl_disconnect (L : List String) (m : ConnectionManager) (room : String) :
    (L.foldl (fun acc pid => disconnect_player acc room pid) m).host_connections =
      m.host_connections := by
  induction L generalizing m with
  | nil => rfl
  | cons pid L ih => simp only [List.foldl_cons]; rw [ih, disconnect_player_host]

theorem nodup_keys_eq {l : List (String × Conn)} (hnd : (l.map Prod.fst).Nodup)
    {k : String} {v w : Conn} (h1 : (k, v) ∈ l) (h2 : (k, w) ∈ l) : v = w := by
  induction l with
  | nil => simp at h1
  | cons pc l ih =>
    simp only [List.map_cons, List.nodup_cons] at hnd
    obtain ⟨hnotin, hnd'⟩ := hnd
    rcases List.mem_cons.mp h1 with rfl | h1'
    · rcases List.mem_cons.mp h2 with heq | h2'
      · injection heq with hk hv
        exact hv.symm
      · exfalso
        apply hnotin
        exact List.mem_map.mpr ⟨(k, w), h2', rfl⟩
    · rcases List.mem_cons.mp h2 with heq | h2'
      · subst heq
        exfalso
        apply hnotin
        exact List.mem_map.mpr ⟨(k, v), h1', rfl⟩
      · exact ih hnd' h1' h2'

theorem lookup_filter_keep (players : List (String × Conn)) (f : String × Conn → Bool)
    (k : String) (v : Conn) (hmem : (k, v) ∈ players) (hnd : (players.map Prod.fst).Nodup)
    (hkeep : f (k, v) = true) :
    (players.filter f).lookup k = some v := by
  induction players with
  | nil => simp at hmem
  | cons pc players ih =>
    simp only [List.map_cons, List.nodup_cons] at hnd
    obtain ⟨hnotin, hnd'⟩ := hnd
    rcases List.mem_cons.mp hmem with rfl | hmem'
    · rw [List.filter_cons_of_pos hkeep]
      simp [List.lookup]
    · obtain ⟨k', v'⟩ := pc
      have hkey : k' ≠ k := fun hc =>
        (by simpa using hnotin : k' ∉ players.map Prod.fst)
          (hc ▸ List.mem_map.mpr ⟨(k, v), hmem', rfl⟩)
      have hkb : (k == k') = false := by simp; exact fun hc => hkey hc.symm
      cases hfc : f (k', v') with
      | true =>
        rw [List.filter_cons_of_pos hfc]
        simp only [List.lookup, hkb]
        exact ih hmem' hnd'
      | false =>
        rw [List.filter_cons_of_neg (by simp [hfc])]
        exact ih hmem' hnd'

theorem lookup_filter_drop (players : List (String × Conn)) (f : String × Conn → Bool)
    (k : String) (hdrop : ∀ v, (k, v) ∈ players → f (k, v) = false) :
    (players.filter f).lookup k = none := by
  induction players with
  | nil => rfl
  | cons pc players ih =>
    obtain ⟨k', v'⟩ := pc
    cases hfc : f (k', v') with
    | false =>
      rw [List.filter_cons_of_neg (by simp [hfc])]
      exact ih (fun v hv => hdrop v (List.mem_cons_of_mem _ hv))
    | true =>
      rw [List.filter_cons_of_pos hfc]
      have hkk : (k == k') = false := by
        simp
        intro hc
        subst hc
        exact absurd (hdrop v' (List.mem_cons_self _ _)) (by simp [hfc])
      simp only [List.lookup, hkk]
      exact ih (fun v hv => hdrop v (List.mem_cons_of_mem _ hv))

theorem broadcast_to_room_eq_none (m : ConnectionManager) (room msg : String)
    (hl : m.player_connections.lookup room = none) :
    broadcast_to_room m room msg = (m, []) := by
  unfold broadcast_to_room
  rw [hl]

theorem broadcast_to_room_eq_some (m : ConnectionManager) (room msg : String)
    (players : List (String × Conn))
    (hl : m.player_connections.lookup room = some players) :
    broadcast_to_room m room msg =
      (((players.filter (fun pc => !pc.2.alive)).map (fun pc => pc.1)).foldl
          (fun acc pid => disconnect_player acc room pid) m,
       players.filterMap (fun pc => send_json pc.2 msg)) := by
  unfold broadcast_to_room
  rw [hl]

theorem broadcast_to_room_spec (m : ConnectionManager) (room msg : String)
    (hnd : ((playersOf m room).map Prod.fst).Nodup) :
    (∀ pc ∈ playersOf m room, pc.2.alive = true →
      (pc.2.id, msg) ∈ (broadcast_to_room m room msg).2) ∧
    (∀ pc ∈ playersOf m room, pc.2.alive = true →
      (playersOf (broadcast_to_room m room msg).1 room).lookup pc.1 = some pc.2) ∧
    (∀ pc ∈ playersOf m room, pc.2.alive = false →
      (playersOf (broadcast_to_room m room msg).1 room).lookup pc.1 = none) ∧
    (broadcast_to_room m room msg).1.host_connections = m.host_connections := by
  cases hl : m.player_connections.lookup room with
  | none =>
    rw [broadcast_to_room_eq_none m room msg hl]
    have hempty : playersOf m room = [] := by unfold playersOf; rw [hl]; rfl
    rw [hempty]
    refine ⟨?_, ?_, ?_, rfl⟩ <;> intro pc hpc <;> simp at hpc
  | some players =>
    rw [broadcast_to_room_eq_some m room msg players hl]
    have hplayers : playersOf m room = players := by unfold playersOf; rw [hl]; rfl
    rw [hplayers]
    rw [hplayers] at hnd
    refine ⟨?_, ?_, ?_, ?_⟩
    · intro pc hpc halive
      exact List.mem_filterMap.mpr ⟨pc, hpc, by simp [send_json, halive]⟩
    · intro pc hpc halive
      obtain ⟨pk, pv⟩ := pc
      rw [playersOf_foldl_disconnect, hplayers]
      have hnotdead : (((players.filter (fun pc => !pc.2.alive)).map (fun pc => pc.1)).any
          (fun x => pk == x)) = false := by
        cases hx : (((players.filter (fun pc => !pc.2.alive)).map (fun pc => pc.1)).any
            (fun x => pk == x)) with
        | false => rfl
        | true =>
          exfalso
          obtain ⟨x, hxmem, hbeq⟩ := List.any_eq_true.mp hx
          obtain ⟨qc, hqc, hqx⟩ := List.mem_map.mp hxmem
          obtain ⟨hqcmem, hqcdead⟩ := List.mem_filter.mp hqc
          obtain ⟨qk, qv⟩ := qc
          have hkx : pk = x := by simpa using hbeq
          have hqk : qk = pk := by rw [hkx]; exact hqx
          subst hqk
          have hvv : qv = pv := nodup_keys_eq hnd hqcmem hpc
          subst hvv
          rw [show ((qk, qv) : String × Conn).2.alive = true from halive] at hqcdead
          simp at hqcdead
      exact lookup_filter_keep players _ pk pv hpc hnd (by
        show (!(((players.filter (fun pc => !pc.2.alive)).map (fun pc => pc.1)).any
          (fun x => pk == x))) = true
        rw [hnotdead]
        rfl)
    · intro pc hpc hdead
      obtain ⟨pk, pv⟩ := pc
      rw [playersOf_foldl_disconnect, hplayers]
      apply lookup_filter_drop
      intro v hv
      have hin : (((players.filter (fun pc => !pc.2.alive)).map (fun pc => pc.1)).any
          (fun x => pk == x)) = true :=
        List.any_eq_true.mpr ⟨pk,
          List.mem_map.mpr ⟨(pk, pv), List.mem_filter.mpr ⟨hpc, by
            show (!((pk, pv) : String × Conn).2.alive) = true
            rw [hdead]
            rfl⟩, rfl⟩, by simp⟩
      show (!(((players.filter (fun pc => !pc.2.alive)).map (fun pc => pc.1)).any
        (fun x => pk == x))) = false
      rw [hin]
      rfl
    · exact host_foldl_disconnect _ _ _

/-- C9 counterexample: with a dead host connection registered for room R,
send_to_host delivers nothing (the send raises and is caught) yet the host
connection stays registered, both after the directed send and after a full
broadcast; a directed send to a dead player likewise leaves the registry
untouched. This refutes the claim that every connection whose delivery
fails is unregistered. -/
theorem C9_failed_send_not_unregistered_cex :
    cmMixed.host_connections.lookup "R" = some hostConnDead ∧
    hostConnDead.alive = false ∧
    send_to_host cmMixed "R" "hello" = (cmMixed, []) ∧
    (broadcast_to_all cmMixed "R" "hello").1.host_connections.lookup "R" = some hostConnDead ∧
    send_to_player cmMixed "R" "p2" "hello" = (cmMixed, []) := by
  refine ⟨by decide, rfl, by decide, by decide, by decide⟩

/-- C9 amended: delivery failures are absorbed (never raised); a broadcast
delivers to every alive registered player connection and to an alive host
regardless of dead connections among the recipients; players whose delivery
failed are unregistered while alive players stay registered; but a failing
host (and failing targets of the directed sends) remain registered — only
broadcast_to_room unregisters failing recipients. -/
theorem C9_broadcast_best_effort :
    ∀ (m : ConnectionManager) (room msg : String),
      ((playersOf m room).map Prod.fst).Nodup →
      (∀ pc ∈ playersOf m room, pc.2.alive = true →
        (pc.2.id, msg) ∈ (broadcast_to_all m room msg).2) ∧
      (∀ c, m.host_connections.lookup room = some c → c.alive = true →
        (c.id, msg) ∈ (broadcast_to_all m room msg).2) ∧
      (∀ pc ∈ playersOf m room, pc.2.alive = true →
        (playersOf (broadcast_to_all m room msg).1 room).lookup pc.1 = some pc.2) ∧
      (∀ pc ∈ playersOf m room, pc.2.alive = false →
        (playersOf (broadcast_to_all m room msg).1 room).lookup pc.1 = none) ∧
      (broadcast_to_all m room msg).1.host_connections = m.host_connections := by
  intro m room msg hnd
  have hall : broadcast_to_all m room msg =
      ((broadcast_to_room m room msg).1,
       (send_to_host m room msg).2 ++ (broadcast_to_room m room msg).2) := by
    simp only [broadcast_to_all, send_to_host_fst]
  obtain ⟨hdel, hkeep, hdrop, hhost⟩ := broadcast_to_room_spec m room msg hnd
  rw [hall]
  refine ⟨?_, ?_, ?_, ?_, ?_⟩
  · intro pc hpc halive
    exact List.mem_append_right _ (hdel pc hpc halive)
  · intro c hc halive
    apply List.mem_append_left
    have hsend : (send_to_host m room msg).2 = [(c.id, msg)] := by
      unfold send_to_host
      rw [hc]
      simp [send_json, halive]
    rw [hsend]
    exact List.mem_singleton_self _
  · exact hkeep
  · exact hdrop
  · exact hhost

/-- Witness for C9 amended: in the mixed room the two alive players receive
the broadcast, the dead player is unregistered, the alive player stays
registered and the (dead) host registration is untouched. -/
theorem C9_broadcast_best_effort_witness :
    ("ws1", "hello") ∈ (broadcast_to_all cmMixed "R" "hello").2 ∧
    ("ws3", "hello") ∈ (broadcast_to_all cmMixed "R" "hello").2 ∧
    (playersOf (broadcast_to_all cmMixed "R" "hello").1 "R").lookup "p2" = none ∧
    (playersOf (broadcast_to_all cmMixed "R" "hello").1 "R").lookup "p1" = some connAlive1 ∧
    (broadcast_to_all cmMixed "R" "hello").1.host_connections = cmMixed.host_connections := by
  have h := C9_broadcast_best_effort cmMixed "R" "hello" (by decide)
  refine ⟨?_, ?_, ?_, ?_, h.2.2.2.2⟩
  · exact h.1 ("p1", connAlive1) (by decide) rfl
  · exact h.1 ("p3", connAlive3) (by decide) rfl
  · exact h.2.2.2.1 ("p2", connDead2) (by decide) rfl
  · exact h.2.2.1 ("p1", connAlive1) (by decide) rfl

end QuizApp
